import Mathlib

/-
Shallow embedding of the Sonata GPIO driver
(src/sdk/include/platform/sunburst/platform-gpio.hh) and the OpenTitan UART
driver (src/sdk/include/platform/sunburst/platform-uart.hh).

Machine integers are modelled as `Nat` with explicit reductions where the
C++ types impose them: `uint8_t` parameters reduce their argument `% 256`,
`uint32_t` arithmetic reduces `% 2 ^ 32` where a result could exceed 32 bits,
and the C++ bitwise complement `~x` of a `uint32_t` is `x ^^^ (2 ^ 32 - 1)`.
Memory-mapped registers become fields of an explicit state record; each
member function becomes a state-passing Lean function.
-/

/-- The four 32-bit registers of one `SonataGpio` instance, in declaration
order: `output`, `input`, `debouncedInput`, `outputEnable`. -/
structure SonataGpio where
  output : Nat
  input : Nat
  debouncedInput : Nat
  outputEnable : Nat
deriving DecidableEq, Repr

/-- Bitwise complement of a 32-bit value, i.e. C++ `~x` at type `uint32_t`. -/
def compl32 (x : Nat) : Nat := x ^^^ (2 ^ 32 - 1)

/-- `SonataGpio::gpio_bit(uint8_t index, uint32_t mask)`:
`return (1 << index) & mask;`.  The `uint8_t` parameter reduces the incoming
index `% 256` (every call site passes a wider integer, which C++ converts by
truncation).  The shift is modelled mathematically over `Nat`, which encodes
the intent stated in the function's own doc comment ("Will mask out the bit
if this is outside of the provided mask"): the AND against a 32-bit `mask`
yields `0` whenever the shifted bit lies at or beyond bit 32.  CAUTION: in
the source, `1 << index` shifts an `int`, so shift amounts at or beyond 32
are undefined behavior — the program does not actually guarantee the `0`
result there.  `gpio_bit_rv32` below models the de-facto behavior of the
RV32 hardware at those amounts; theorems that depend on the region at or
beyond 32 are stated against both models or confined to the well-defined
region `index % 256 < 32`, on which the two models agree. -/
def gpio_bit (index mask : Nat) : Nat := (1 <<< (index % 256)) &&& mask

/-- De-facto semantics of `gpio_bit` at the shift amounts where the C++ is
undefined behavior: on the RV32 targets this driver runs on, the shift
instruction reads only the low five bits of the shift amount, so the machine
wraps the amount `% 32`.  On the well-defined region `index % 256 < 32` this
coincides with `gpio_bit`; for larger amounts it yields the wrapped —
possibly nonzero — bit that the hardware actually produces. -/
def gpio_bit_rv32 (index mask : Nat) : Nat := (1 <<< (index % 256 % 32)) &&& mask

/-- `SonataGpio::output_set(uint8_t index, bool value)`: computes
`Bit = gpio_bit(index, OutputMask)`, then `output = value ? output | Bit
: output & ~Bit`, and returns `Bit != 0`.  The template parameter
`OutputMask` is passed explicitly. -/
def output_set (OutputMask : Nat) (s : SonataGpio) (index : Nat)
    (value : Bool) : SonataGpio × Bool :=
  let Bit := gpio_bit index OutputMask
  ({ s with output :=
      if value then s.output ||| Bit else s.output &&& compl32 Bit },
   Bit != 0)

/-- `SonataGpio::output_enable(uint32_t index, bool enable)`: identical
structure to `output_set`, operating on the `outputEnable` register. -/
def output_enable (OutputMask : Nat) (s : SonataGpio) (index : Nat)
    (enable : Bool) : SonataGpio × Bool :=
  let Bit := gpio_bit index OutputMask
  ({ s with outputEnable :=
      if enable then s.outputEnable ||| Bit else s.outputEnable &&& compl32 Bit },
   Bit != 0)

/-- `SonataGpio::input_get(uint32_t index)`:
`return (input & gpio_bit(index, InputMask)) > 0;`. -/
def input_get (InputMask : Nat) (s : SonataGpio) (index : Nat) : Bool :=
  decide (0 < s.input &&& gpio_bit index InputMask)

/-- `SonataGpio::input_debounced_get(uint32_t index)`:
`return (debouncedInput & gpio_bit(index, InputMask)) > 0;`. -/
def input_debounced_get (InputMask : Nat) (s : SonataGpio) (index : Nat) : Bool :=
  decide (0 < s.debouncedInput &&& gpio_bit index InputMask)

/-- `SonataGpioBoard` inherits `SonataGpio<0x0000'00FF, 0x0001'FFFF>`. -/
def BoardOutputMask : Nat := 0xFF

/-- Input mask of `SonataGpioBoard`. -/
def BoardInputMask : Nat := 0x1FFFF

/-- `SonataGpioBoard::FirstLED`. -/
def FirstLED : Nat := 0

/-- `SonataGpioBoard::LastLED`. -/
def LastLED : Nat := 7

/-- `SonataGpioBoard::LEDMask = uint32_t(Outputs::Leds) = 0xFF << 0`. -/
def LEDMask : Nat := 0xFF

/-- `SonataGpioBoard::FirstSwitch`. -/
def FirstSwitch : Nat := 0

/-- `SonataGpioBoard::SwitchMask = uint32_t(Inputs::DipSwitches) = 0xFF << 0`. -/
def SwitchMask : Nat := 0xFF

/-- `SonataGpioBoard::led_bit(uint32_t index)`:
`return gpio_bit(index + FirstLED, LEDMask);`. -/
def led_bit (index : Nat) : Nat := gpio_bit (index + FirstLED) LEDMask

/-- `SonataGpioBoard::led_on(uint32_t index)`:
`output = output | led_bit(index);`. -/
def led_on (s : SonataGpio) (index : Nat) : SonataGpio :=
  { s with output := s.output ||| led_bit index }

/-- `SonataGpioBoard::led_off(uint32_t index)`:
`output = output & ~led_bit(index);`. -/
def led_off (s : SonataGpio) (index : Nat) : SonataGpio :=
  { s with output := s.output &&& compl32 (led_bit index) }

/-- `SonataGpioBoard::led_toggle(uint32_t index)`:
`output = output ^ led_bit(index);`. -/
def led_toggle (s : SonataGpio) (index : Nat) : SonataGpio :=
  { s with output := s.output ^^^ led_bit index }

/-- `SonataGpioBoard::switch_bit(uint32_t index)`:
`return gpio_bit(index + FirstSwitch, SwitchMask);`. -/
def switch_bit (index : Nat) : Nat := gpio_bit (index + FirstSwitch) SwitchMask

/-- `SonataGpioBoard::read_switch(uint32_t index)`:
`return (input & switch_bit(index)) > 0;`. -/
def read_switch (s : SonataGpio) (index : Nat) : Bool :=
  decide (0 < s.input &&& switch_bit index)

/-- `SonataGpioBoard::led_bit` under the de-facto RV32 shift semantics
(`gpio_bit_rv32`); agrees with `led_bit` whenever the shift amount is below
32, i.e. on all C++-defined inputs. -/
def led_bit_rv32 (index : Nat) : Nat := gpio_bit_rv32 (index + FirstLED) LEDMask

/-- `SonataGpioBoard::led_on` under the de-facto RV32 shift semantics. -/
def led_on_rv32 (s : SonataGpio) (index : Nat) : SonataGpio :=
  { s with output := s.output ||| led_bit_rv32 index }

/-- `SonataGpioBoard::led_off` under the de-facto RV32 shift semantics. -/
def led_off_rv32 (s : SonataGpio) (index : Nat) : SonataGpio :=
  { s with output := s.output &&& compl32 (led_bit_rv32 index) }

/-- `SonataGpioBoard::led_toggle` under the de-facto RV32 shift semantics. -/
def led_toggle_rv32 (s : SonataGpio) (index : Nat) : SonataGpio :=
  { s with output := s.output ^^^ led_bit_rv32 index }

/-- `SonataGpioBoard::switch_bit` under the de-facto RV32 shift semantics. -/
def switch_bit_rv32 (index : Nat) : Nat :=
  gpio_bit_rv32 (index + FirstSwitch) SwitchMask

/-- `SonataGpioBoard::read_switch` under the de-facto RV32 shift semantics. -/
def read_switch_rv32 (s : SonataGpio) (index : Nat) : Bool :=
  decide (0 < s.input &&& switch_bit_rv32 index)

/-- `OpenTitanUart::can_write()`: `return (fifoStatus & 0xff) < 32;`,
as a function of the `fifoStatus` register value. -/
def can_write (fifoStatus : Nat) : Bool := decide (fifoStatus &&& 0xff < 32)

/-- `OpenTitanUart::can_read()`: `return ((fifoStatus >> 16) & 0xff) > 0;`. -/
def can_read (fifoStatus : Nat) : Bool := decide (0 < (fifoStatus >>> 16) &&& 0xff)

/-- `OpenTitanUart::init(unsigned baudRate)` with the externally supplied
clock constant `CPU_TIMER_HZ` passed as the parameter `cpuFreq`: computes
`NCO = (uint32_t)(((uint64_t)baudRate << 20) / cpuFreq)` and returns the
value written to `ctrl`, namely `(NCO << 16) | 0b11` at `uint32_t`. -/
def uart_init_ctrl (baudRate cpuFreq : Nat) : Nat :=
  let nco : Nat := ((baudRate % 2 ^ 32) <<< 20 / cpuFreq) % 2 ^ 32
  (nco <<< 16) % 2 ^ 32 ||| 0b11

/-- Model of the spin loop in `OpenTitanUart::blocking_write`: `fs n` is the
value the `fifoStatus` register would yield at the n-th poll (the hardware may
change it between polls).  With `fuel` polls available, returns `some k` when
the first poll satisfying `can_write` is poll `k`, and `none` when no poll
within `fuel` succeeds (the loop is still spinning). -/
def spinUntilWritable (fs : Nat → Nat) : Nat → Option Nat
  | 0 => none
  | n + 1 =>
    if can_write (fs 0) then some 0
    else Option.map (fun k => k + 1) (spinUntilWritable (fun k => fs (k + 1)) n)

/-- `OpenTitanUart::blocking_write(uint8_t byte)`: spins until `can_write()`,
then performs the single write `wData = byte`.  Returns `some (k, b)` when the
loop exits at poll `k` and writes the byte value `b` (the `uint8_t` parameter
reduces `byte % 256`), and `none` when the loop has not terminated within
`fuel` polls. -/
def blocking_write_model (fs : Nat → Nat) (byte fuel : Nat) : Option (Nat × Nat) :=
  Option.map (fun k => (k, byte % 256)) (spinUntilWritable fs fuel)

/- ------------------------------------------------------------------ -/
/- Helper lemmas                                                      -/
/- ------------------------------------------------------------------ -/

theorem gpio_bit_eq (index mask : Nat) :
    gpio_bit index mask =
      if mask.testBit (index % 256) then 2 ^ (index % 256) else 0 := by
  unfold gpio_bit
  rw [Nat.shiftLeft_eq, Nat.one_mul]
  apply Nat.eq_of_testBit_eq
  intro j
  by_cases hb : mask.testBit (index % 256)
  · simp only [hb, if_true, Nat.testBit_and, Nat.testBit_two_pow]
    by_cases hj : index % 256 = j
    · subst hj; simp [hb]
    · simp [hj]
  · simp only [hb, if_false, Nat.testBit_and, Nat.testBit_two_pow, Nat.zero_testBit]
    by_cases hj : index % 256 = j
    · subst hj; simp [hb]
    · simp [hj]

theorem gpio_bit_ne_zero (index mask : Nat) (h : gpio_bit index mask ≠ 0) :
    mask.testBit (index % 256) = true ∧ gpio_bit index mask = 2 ^ (index % 256) := by
  rw [gpio_bit_eq] at h ⊢
  by_cases hb : mask.testBit (index % 256)
  · exact ⟨hb, by simp [hb]⟩
  · simp [hb] at h

theorem gpio_bit_index_lt (index mask : Nat) (hm : mask < 2 ^ 32)
    (h : gpio_bit index mask ≠ 0) : index % 256 < 32 := by
  obtain ⟨hb, -⟩ := gpio_bit_ne_zero index mask h
  by_contra hge
  have : mask.testBit (index % 256) = false :=
    Nat.testBit_lt_two_pow
      (Nat.lt_of_lt_of_le hm (Nat.pow_le_pow_right (by omega) (by omega)))
  simp [this] at hb

theorem testBit_compl32 (x j : Nat) :
    (compl32 x).testBit j = (x.testBit j ^^ decide (j < 32)) := by
  unfold compl32
  rw [Nat.testBit_xor, Nat.testBit_two_pow_sub_one]

theorem and_compl32_zero (x : Nat) (hx : x < 2 ^ 32) : x &&& compl32 0 = x := by
  unfold compl32
  rw [Nat.zero_xor, Nat.and_pow_two_sub_one_of_lt_two_pow hx]

/- ------------------------------------------------------------------ -/
/- Claim theorems                                                     -/
/- ------------------------------------------------------------------ -/

/-- Claim C5 (code-bug evidence): the claim states the documented contract of
`gpio_bit` — return `(1 << index) & mask`, with `0` for every index at or
beyond the 32-bit register width, the shift being well-defined there — but in
the source `1 << index` shifts an `int`, which is undefined behavior for
shift amounts at or beyond 32.  At the failing input `index = 33` the
de-facto RV32 hardware wraps the shift amount to 1: `gpio_bit_rv32` yields
bit 1 (the value 2), not the documented `0` that the intent model `gpio_bit`
assigns, so the program does not guarantee the claimed result (and, through
`led_bit_rv32 33 = 2`, a wrapped index reaches a live LED bit).  On a
well-defined input such as `index = 5` the two models agree. -/
theorem gpio_bit_shift_ub_divergence :
    gpio_bit_rv32 33 0x0FFFFFFF = 2 ∧
    gpio_bit 33 0x0FFFFFFF = 0 ∧
    gpio_bit_rv32 33 0x0FFFFFFF ≠ gpio_bit 33 0x0FFFFFFF ∧
    led_bit_rv32 33 = 2 ∧
    gpio_bit_rv32 5 0xFF = gpio_bit 5 0xFF := by
  decide

/-- Claim C6: `can_write` is true iff the transmit FIFO occupancy held in the
low 8 bits of `fifoStatus` is strictly below 32, and it is false whenever the
occupancy is exactly 32. -/
theorem can_write_spec (fifoStatus : Nat) :
    (can_write fifoStatus = true ↔ fifoStatus &&& 0xff < 32) ∧
    (fifoStatus &&& 0xff = 32 → can_write fifoStatus = false) := by
  constructor
  · simp [can_write]
  · intro h
    simp [can_write, h]

/-- Claim C6 witness: at `fifoStatus = 32` (occupancy exactly 32) `can_write`
is false. -/
theorem can_write_spec_witness : can_write 32 = false :=
  (can_write_spec 32).2 (by decide)

/-- Claim C7: for every index whose computed bit lies outside `InputMask`
(`gpio_bit index InputMask = 0`) and every register contents, `input_get` and
`input_debounced_get` return `false`. -/
theorem input_get_invalid_spec (InputMask : Nat) (s : SonataGpio) (index : Nat)
    (h : gpio_bit index InputMask = 0) :
    input_get InputMask s index = false ∧
    input_debounced_get InputMask s index = false := by
  unfold input_get input_debounced_get
  rw [h]
  simp

/-- Claim C7 witness: index 20 is outside the board input mask `0x1FFFF`;
`input_get` and `input_debounced_get` return false even with all register bits
set. -/
theorem input_get_invalid_spec_witness :
    input_get 0x1FFFF ⟨0, 0xFFFFFFFF, 0xFFFFFFFF, 0⟩ 20 = false ∧
    input_debounced_get 0x1FFFF ⟨0, 0xFFFFFFFF, 0xFFFFFFFF, 0⟩ 20 = false :=
  input_get_invalid_spec 0x1FFFF ⟨0, 0xFFFFFFFF, 0xFFFFFFFF, 0⟩ 20 (by decide)

/-- Claim C8: toggling the same LED index twice restores the original GPIO
state, for every LED index and every initial register contents. -/
theorem led_toggle_involution (s : SonataGpio) (index : Nat) :
    led_toggle (led_toggle s index) index = s := by
  obtain ⟨o, i, d, e⟩ := s
  unfold led_toggle
  simp [Nat.xor_assoc]

/-- Claim C10: every GPIO mutating operation writes only its single target
register: `output_set`, `led_on`, `led_off`, `led_toggle` modify only `output`
(leaving `input`, `debouncedInput` and `outputEnable` unchanged), and
`output_enable` modifies only `outputEnable` (leaving `output`, `input` and
`debouncedInput` unchanged). -/
theorem gpio_frame_spec (mask : Nat) (s : SonataGpio) (index : Nat)
    (value enable : Bool) :
    ((output_set mask s index value).1.input = s.input ∧
     (output_set mask s index value).1.debouncedInput = s.debouncedInput ∧
     (output_set mask s index value).1.outputEnable = s.outputEnable) ∧
    ((output_enable mask s index enable).1.output = s.output ∧
     (output_enable mask s index enable).1.input = s.input ∧
     (output_enable mask s index enable).1.debouncedInput = s.debouncedInput) ∧
    ((led_on s index).input = s.input ∧
     (led_on s index).debouncedInput = s.debouncedInput ∧
     (led_on s index).outputEnable = s.outputEnable) ∧
    ((led_off s index).input = s.input ∧
     (led_off s index).debouncedInput = s.debouncedInput ∧
     (led_off s index).outputEnable = s.outputEnable) ∧
    ((led_toggle s index).input = s.input ∧
     (led_toggle s index).debouncedInput = s.debouncedInput ∧
     (led_toggle s index).outputEnable = s.outputEnable) := by
  unfold output_set output_enable led_on led_off led_toggle
  simp

/-- Claim C2: for every pin index whose bit lies outside `OutputMask`
(`gpio_bit index OutputMask = 0`) and every boolean `value`, `output_set`
returns `false` and leaves the whole state (in particular the `output`
register) unchanged. -/
theorem output_set_invalid_spec (OutputMask : Nat) (s : SonataGpio)
    (index : Nat) (value : Bool) (h : gpio_bit index OutputMask = 0)
    (hs : s.output < 2 ^ 32) :
    (output_set OutputMask s index value).2 = false ∧
    (output_set OutputMask s index value).1 = s := by
  unfold output_set
  rw [h]
  refine ⟨rfl, ?_⟩
  cases value
  · simp [and_compl32_zero s.output hs]
  · simp

/-- Claim C2 witness: index 9 lies outside the board output mask `0xFF`. -/
theorem output_set_invalid_spec_witness :
    (output_set 0xFF ⟨5, 1, 2, 3⟩ 9 true).2 = false ∧
    (output_set 0xFF ⟨5, 1, 2, 3⟩ 9 true).1 = ⟨5, 1, 2, 3⟩ :=
  output_set_invalid_spec 0xFF ⟨5, 1, 2, 3⟩ 9 true (by decide) (by decide)

/-- Claim C3: for every index valid under a 32-bit `OutputMask`
(`gpio_bit index OutputMask ≠ 0`, with `index` in the `uint8_t` domain) and
every prior 32-bit register state, `output_set index true` sets exactly bit
`index` of `output` (no other bit changes) and returns `true`, and
`output_set index false` clears exactly bit `index` and returns `true`. -/
theorem output_set_valid_spec (OutputMask : Nat) (s : SonataGpio) (index : Nat)
    (hm : OutputMask < 2 ^ 32) (hv : gpio_bit index OutputMask ≠ 0)
    (hi : index < 256) (hs : s.output < 2 ^ 32) :
    (output_set OutputMask s index true).2 = true ∧
    (∀ j, (output_set OutputMask s index true).1.output.testBit j =
      (s.output.testBit j || decide (j = index))) ∧
    (output_set OutputMask s index false).2 = true ∧
    (∀ j, (output_set OutputMask s index false).1.output.testBit j =
      (s.output.testBit j && decide (j ≠ index))) := by
  have hmod : index % 256 = index := Nat.mod_eq_of_lt hi
  obtain ⟨-, hbit⟩ := gpio_bit_ne_zero index OutputMask hv
  have hlt32 : index < 32 := by
    have := gpio_bit_index_lt index OutputMask hm hv
    omega
  rw [hmod] at hbit
  refine ⟨?_, ?_, ?_, ?_⟩
  · unfold output_set
    simp only [bne_iff_ne, ne_eq]
    simp [hv]
  · intro j
    unfold output_set
    simp only [if_true]
    rw [hbit, Nat.testBit_or, Nat.testBit_two_pow]
    by_cases hj : j = index
    · subst hj; simp
    · simp [hj, Ne.symm hj]
  · unfold output_set
    simp only [bne_iff_ne, ne_eq]
    simp [hv]
  · intro j
    unfold output_set
    simp only [Bool.false_eq_true, if_false]
    rw [hbit, Nat.testBit_and, testBit_compl32, Nat.testBit_two_pow]
    by_cases hj : j = index
    · subst hj; simp [hlt32]
    · by_cases hj32 : j < 32
      · simp [hj, Ne.symm hj, hj32]
      · have hout : s.output.testBit j = false :=
          Nat.testBit_lt_two_pow
            (Nat.lt_of_lt_of_le hs (Nat.pow_le_pow_right (by omega) (by omega)))
        simp [hj, Ne.symm hj, hj32, hout]

/-- Claim C3 witness: index 2 is valid under the board output mask; setting it
in an `output` register holding `0b1000` yields bits 2 and 3 set. -/
theorem output_set_valid_spec_witness :
    (output_set 0xFF ⟨8, 0, 0, 0⟩ 2 true).2 = true ∧
    (output_set 0xFF ⟨8, 0, 0, 0⟩ 2 true).1.output.testBit 2 =
      ((8 : Nat).testBit 2 || decide ((2 : Nat) = 2)) ∧
    (output_set 0xFF ⟨8, 0, 0, 0⟩ 2 false).1.output.testBit 3 =
      ((8 : Nat).testBit 3 && decide ((3 : Nat) ≠ 2)) := by
  have h := output_set_valid_spec 0xFF ⟨8, 0, 0, 0⟩ 2
    (by decide) (by decide) (by decide) (by decide)
  exact ⟨h.1, h.2.1 2, h.2.2.2 3⟩

/-- Claim C4: for every baud rate in the `unsigned` range and every positive
clock frequency for which the divisor fits the 16-bit `ctrl` field (the
realistic range), `init` computes `NCO = floor(baudRate * 2 ^ 20 / cpuFreq)`
with no intermediate overflow and writes `ctrl = (NCO <<< 16) ||| 0b11`; in
particular at baud rate 115200 and clock 50000000 the divisor is exactly 2415. -/
theorem uart_init_spec (baudRate cpuFreq : Nat) (hb : baudRate < 2 ^ 32)
    (_hf : 0 < cpuFreq) (hr : baudRate * 2 ^ 20 / cpuFreq < 2 ^ 16) :
    uart_init_ctrl baudRate cpuFreq =
      (baudRate * 2 ^ 20 / cpuFreq) <<< 16 ||| 0b11 ∧
    uart_init_ctrl 115200 50000000 =
      (115200 * 2 ^ 20 / 50000000) <<< 16 ||| 0b11 ∧
    115200 * 2 ^ 20 / 50000000 = 2415 := by
  refine ⟨?_, by decide, by decide⟩
  unfold uart_init_ctrl
  simp only [Nat.shiftLeft_eq]
  rw [Nat.mod_eq_of_lt hb]
  rw [Nat.mod_eq_of_lt (Nat.lt_trans hr (by norm_num))]
  rw [Nat.mod_eq_of_lt (show baudRate * 2 ^ 20 / cpuFreq * 2 ^ 16 < 2 ^ 32 by
    calc baudRate * 2 ^ 20 / cpuFreq * 2 ^ 16
        < 2 ^ 16 * 2 ^ 16 := Nat.mul_lt_mul_of_lt_of_le hr (Nat.le_refl _) (by norm_num)
      _ = 2 ^ 32 := by norm_num)]

/-- Claim C4 witness: the concrete `ctrl` value for 115200 baud at 50 MHz. -/
theorem uart_init_spec_witness :
    uart_init_ctrl 115200 50000000 = (2415 <<< 16) ||| 0b11 := by
  have h := uart_init_spec 115200 50000000 (by decide) (by decide) (by decide)
  rw [h.1, h.2.2]

theorem spinUntilWritable_some (fuel : Nat) :
    ∀ (fs : Nat → Nat) (k : Nat), spinUntilWritable fs fuel = some k →
      can_write (fs k) = true ∧ ∀ j, j < k → can_write (fs j) = false := by
  induction fuel with
  | zero => intro fs k h; simp [spinUntilWritable] at h
  | succ n ih =>
    intro fs k h
    unfold spinUntilWritable at h
    by_cases hc : can_write (fs 0)
    · rw [if_pos hc] at h
      obtain rfl : (0 : Nat) = k := by simpa using h
      exact ⟨hc, fun j hj => absurd hj (Nat.not_lt_zero j)⟩
    · rw [if_neg hc] at h
      cases hrec : spinUntilWritable (fun k => fs (k + 1)) n with
      | none => rw [hrec] at h; simp at h
      | some m =>
        rw [hrec] at h
        obtain rfl : m + 1 = k := by simpa using h
        obtain ⟨hcw, hprev⟩ := ih (fun k => fs (k + 1)) m hrec
        refine ⟨hcw, fun j hj => ?_⟩
        cases j with
        | zero => simpa using hc
        | succ j => exact hprev j (by omega)

theorem spinUntilWritable_none (fuel : Nat) :
    ∀ fs : Nat → Nat, (∀ n, can_write (fs n) = false) →
      spinUntilWritable fs fuel = none := by
  induction fuel with
  | zero => intro fs _; rfl
  | succ n ih =>
    intro fs h
    unfold spinUntilWritable
    rw [if_neg (by simp [h 0]), ih (fun k => fs (k + 1)) (fun n => h (n + 1))]
    rfl

/-- Claim C9: `blocking_write` never writes `wData` while `can_write` is
false: whenever the spin loop exits (at poll `k`), `can_write` holds at poll
`k` and failed at every earlier poll, and the model performs exactly the
single write of the byte at that point.  And when the transmit FIFO occupancy
(low 8 bits of `fifoStatus`) stays at or above 32 at every poll, the loop
never exits — no write happens for any amount of fuel (no timeout or failure
path exists). -/
theorem blocking_write_spec (fs : Nat → Nat) (byte fuel : Nat) :
    (∀ k, spinUntilWritable fs fuel = some k →
       can_write (fs k) = true ∧ (∀ j, j < k → can_write (fs j) = false) ∧
       blocking_write_model fs byte fuel = some (k, byte % 256)) ∧
    ((∀ n, 32 ≤ fs n &&& 0xff) → blocking_write_model fs byte fuel = none) := by
  constructor
  · intro k h
    obtain ⟨h1, h2⟩ := spinUntilWritable_some fuel fs k h
    refine ⟨h1, h2, ?_⟩
    unfold blocking_write_model
    rw [h]
    rfl
  · intro h
    have hcw : ∀ n, can_write (fs n) = false := by
      intro n
      unfold can_write
      simp only [decide_eq_false_iff_not, Nat.not_lt]
      exact h n
    unfold blocking_write_model
    rw [spinUntilWritable_none fuel fs hcw]
    rfl

/-- Claim C9 witness: with occupancy 40 for the first two polls and 0 after,
the write of byte 65 happens at poll 2; with occupancy pinned at 32 forever,
no write ever happens. -/
theorem blocking_write_spec_witness :
    (can_write ((fun n => if n < 2 then 40 else 0) 2) = true ∧
     blocking_write_model (fun n => if n < 2 then 40 else 0) 65 5 = some (2, 65)) ∧
    blocking_write_model (fun _ => 32) 65 5 = none := by
  have h1 := (blocking_write_spec (fun n => if n < 2 then 40 else 0) 65 5).1 2
    (by decide)
  have h2 := (blocking_write_spec (fun _ => 32) 65 5).2 (fun n => by decide)
  exact ⟨⟨h1.1, h1.2.2⟩, h2⟩

theorem led_bit_cases (index : Nat) :
    led_bit index = if index % 256 < 8 then 2 ^ (index % 256) else 0 := by
  unfold led_bit FirstLED LEDMask
  rw [Nat.add_zero, gpio_bit_eq]
  rw [show (0xFF : Nat) = 2 ^ 8 - 1 from rfl, Nat.testBit_two_pow_sub_one]
  simp

theorem switch_bit_cases (index : Nat) :
    switch_bit index = if index % 256 < 8 then 2 ^ (index % 256) else 0 := by
  unfold switch_bit FirstSwitch SwitchMask
  rw [Nat.add_zero, gpio_bit_eq]
  rw [show (0xFF : Nat) = 2 ^ 8 - 1 from rfl, Nat.testBit_two_pow_sub_one]
  simp

theorem led_bit_testBit_ge (index j : Nat) (hj : 8 ≤ j) :
    (led_bit index).testBit j = false := by
  rw [led_bit_cases]
  by_cases h : index % 256 < 8
  · rw [if_pos h, Nat.testBit_two_pow]
    simp only [decide_eq_false_iff_not]
    omega
  · rw [if_neg h]
    exact Nat.zero_testBit j

theorem switch_bit_testBit_ge (index j : Nat) (hj : 8 ≤ j) :
    (switch_bit index).testBit j = false := by
  rw [switch_bit_cases]
  by_cases h : index % 256 < 8
  · rw [if_pos h, Nat.testBit_two_pow]
    simp only [decide_eq_false_iff_not]
    omega
  · rw [if_neg h]
    exact Nat.zero_testBit j

theorem gpio_bit_rv32_eq (index mask : Nat) :
    gpio_bit_rv32 index mask =
      if mask.testBit (index % 32) then 2 ^ (index % 32) else 0 := by
  unfold gpio_bit_rv32
  rw [Nat.mod_mod_of_dvd index (by norm_num), Nat.shiftLeft_eq, Nat.one_mul]
  apply Nat.eq_of_testBit_eq
  intro j
  by_cases hb : mask.testBit (index % 32)
  · simp only [hb, if_true, Nat.testBit_and, Nat.testBit_two_pow]
    by_cases hj : index % 32 = j
    · subst hj; simp [hb]
    · simp [hj]
  · simp only [hb, if_false, Nat.testBit_and, Nat.testBit_two_pow, Nat.zero_testBit]
    by_cases hj : index % 32 = j
    · subst hj; simp [hb]
    · simp [hj]

theorem gpio_bit_rv32_agrees (index mask : Nat) (h : index % 256 < 32) :
    gpio_bit_rv32 index mask = gpio_bit index mask := by
  unfold gpio_bit_rv32 gpio_bit
  rw [Nat.mod_eq_of_lt h]

theorem led_bit_rv32_cases (index : Nat) :
    led_bit_rv32 index = if index % 32 < 8 then 2 ^ (index % 32) else 0 := by
  unfold led_bit_rv32 FirstLED LEDMask
  rw [Nat.add_zero, gpio_bit_rv32_eq]
  rw [show (0xFF : Nat) = 2 ^ 8 - 1 from rfl, Nat.testBit_two_pow_sub_one]
  simp

theorem switch_bit_rv32_cases (index : Nat) :
    switch_bit_rv32 index = if index % 32 < 8 then 2 ^ (index % 32) else 0 := by
  unfold switch_bit_rv32 FirstSwitch SwitchMask
  rw [Nat.add_zero, gpio_bit_rv32_eq]
  rw [show (0xFF : Nat) = 2 ^ 8 - 1 from rfl, Nat.testBit_two_pow_sub_one]
  simp

theorem led_bit_rv32_testBit_ge (index j : Nat) (hj : 8 ≤ j) :
    (led_bit_rv32 index).testBit j = false := by
  rw [led_bit_rv32_cases]
  by_cases h : index % 32 < 8
  · rw [if_pos h, Nat.testBit_two_pow]
    simp only [decide_eq_false_iff_not]
    omega
  · rw [if_neg h]
    exact Nat.zero_testBit j

theorem switch_bit_rv32_testBit_ge (index j : Nat) (hj : 8 ≤ j) :
    (switch_bit_rv32 index).testBit j = false := by
  rw [switch_bit_rv32_cases]
  by_cases h : index % 32 < 8
  · rw [if_pos h, Nat.testBit_two_pow]
    simp only [decide_eq_false_iff_not]
    omega
  · rw [if_neg h]
    exact Nat.zero_testBit j

theorem frame_or (out b j : Nat) (hb : b.testBit j = false) :
    (out ||| b).testBit j = out.testBit j := by
  simp [Nat.testBit_or, hb]

theorem frame_and_compl (out b j : Nat) (hb : b.testBit j = false)
    (hout : out < 2 ^ 32) : (out &&& compl32 b).testBit j = out.testBit j := by
  rw [Nat.testBit_and, testBit_compl32, hb, Bool.false_xor]
  by_cases hj32 : j < 32
  · simp [hj32]
  · have : out.testBit j = false :=
      Nat.testBit_lt_two_pow
        (Nat.lt_of_lt_of_le hout (Nat.pow_le_pow_right (by omega) (by omega)))
    simp [hj32, this]

theorem frame_xor (out b j : Nat) (hb : b.testBit j = false) :
    (out ^^^ b).testBit j = out.testBit j := by
  simp [Nat.testBit_xor, hb]

theorem and_switch_bit_group (x index : Nat) :
    x &&& switch_bit index = x &&& SwitchMask &&& switch_bit index := by
  apply Nat.eq_of_testBit_eq
  intro j
  simp only [Nat.testBit_and]
  by_cases hj8 : j < 8
  · have hm : SwitchMask.testBit j = true := by
      rw [show (SwitchMask : Nat) = 2 ^ 8 - 1 from rfl, Nat.testBit_two_pow_sub_one]
      simp [hj8]
    rw [hm]
    cases x.testBit j <;> simp
  · rw [switch_bit_testBit_ge index j (by omega)]
    simp

theorem and_switch_bit_rv32_group (x index : Nat) :
    x &&& switch_bit_rv32 index = x &&& SwitchMask &&& switch_bit_rv32 index := by
  apply Nat.eq_of_testBit_eq
  intro j
  simp only [Nat.testBit_and]
  by_cases hj8 : j < 8
  · have hm : SwitchMask.testBit j = true := by
      rw [show (SwitchMask : Nat) = 2 ^ 8 - 1 from rfl, Nat.testBit_two_pow_sub_one]
      simp [hj8]
    rw [hm]
    cases x.testBit j <;> simp
  · rw [switch_bit_rv32_testBit_ge index j (by omega)]
    simp

/-- Claim C1 counterexample: at the concrete out-of-range index 8 (one past
the last LED/switch), the named-group accessors compute bit value 0 — the bit
IS masked against the LED/switch range — so `led_on`, `led_off` and
`led_toggle` leave the adjacent register bit 8 (and everything else)
untouched, and `read_switch` reads false even though adjacent input bit 8 is
set.  This falsifies the claim that some out-of-range index reaches bits
adjacent to the group. -/
theorem led_named_accessors_counterexample :
    led_bit 8 = 0 ∧
    led_on ⟨0, 0, 0, 0⟩ 8 = ⟨0, 0, 0, 0⟩ ∧
    led_off ⟨0x100, 0, 0, 0⟩ 8 = ⟨0x100, 0, 0, 0⟩ ∧
    led_toggle ⟨0x100, 0, 0, 0⟩ 8 = ⟨0x100, 0, 0, 0⟩ ∧
    switch_bit 8 = 0 ∧
    read_switch ⟨0, 0x100, 0, 0⟩ 8 = false := by
  refine ⟨by decide, by decide, ?_, by decide, by decide, by decide⟩
  show ({ output := 0x100 &&& compl32 (led_bit 8), input := 0, debouncedInput := 0,
          outputEnable := 0 } : SonataGpio) = ⟨0x100, 0, 0, 0⟩
  decide

/-- Claim C1 amended: `led_bit` and `switch_bit` mask the computed bit against
the LED/switch group mask, so the named-group accessors never change or read
register bits adjacent to the group: for every index,
`led_on`/`led_off`/`led_toggle` leave every `output` bit at position 8 or
above unchanged and `read_switch` depends only on the switch-group bits of
`input` — and this holds both in the intent model (`gpio_bit`, shift masked
out) and in the de-facto RV32 model (`gpio_bit_rv32`, shift amount wrapped)
of the undefined C++ shift, so under either resolution of the undefined
behavior no adjacent bit is reached.  Moreover, for every out-of-range index
in the C++-defined region (`8 ≤ index % 256 < 32`) the computed bit is 0 in
both models and the accessors are complete silent no-ops (state unchanged,
read false) — silently ignored, not rejected. -/
theorem led_named_accessors_masked (s : SonataGpio) (index : Nat)
    (hs : s.output < 2 ^ 32) :
    (∀ j, 8 ≤ j →
      (led_on s index).output.testBit j = s.output.testBit j ∧
      (led_off s index).output.testBit j = s.output.testBit j ∧
      (led_toggle s index).output.testBit j = s.output.testBit j ∧
      (led_on_rv32 s index).output.testBit j = s.output.testBit j ∧
      (led_off_rv32 s index).output.testBit j = s.output.testBit j ∧
      (led_toggle_rv32 s index).output.testBit j = s.output.testBit j) ∧
    (read_switch s index =
       read_switch ⟨s.output, s.input &&& SwitchMask, s.debouncedInput,
         s.outputEnable⟩ index ∧
     read_switch_rv32 s index =
       read_switch_rv32 ⟨s.output, s.input &&& SwitchMask, s.debouncedInput,
         s.outputEnable⟩ index) ∧
    (8 ≤ index % 256 → index % 256 < 32 →
      led_bit index = 0 ∧ switch_bit index = 0 ∧
      led_bit_rv32 index = 0 ∧ switch_bit_rv32 index = 0 ∧
      led_on s index = s ∧ led_off s index = s ∧ led_toggle s index = s ∧
      read_switch s index = false ∧
      led_on_rv32 s index = s ∧ led_off_rv32 s index = s ∧
      led_toggle_rv32 s index = s ∧ read_switch_rv32 s index = false) := by
  refine ⟨?_, ⟨?_, ?_⟩, ?_⟩
  · intro j hj
    have hb : (led_bit index).testBit j = false := led_bit_testBit_ge index j hj
    have hb32 : (led_bit_rv32 index).testBit j = false :=
      led_bit_rv32_testBit_ge index j hj
    exact ⟨frame_or s.output (led_bit index) j hb,
      frame_and_compl s.output (led_bit index) j hb hs,
      frame_xor s.output (led_bit index) j hb,
      frame_or s.output (led_bit_rv32 index) j hb32,
      frame_and_compl s.output (led_bit_rv32 index) j hb32 hs,
      frame_xor s.output (led_bit_rv32 index) j hb32⟩
  · show decide (0 < s.input &&& switch_bit index) =
      decide (0 < s.input &&& SwitchMask &&& switch_bit index)
    rw [and_switch_bit_group]
  · show decide (0 < s.input &&& switch_bit_rv32 index) =
      decide (0 < s.input &&& SwitchMask &&& switch_bit_rv32 index)
    rw [and_switch_bit_rv32_group]
  · intro h8 h32
    have hled : led_bit index = 0 := by
      rw [led_bit_cases, if_neg (by omega)]
    have hsw : switch_bit index = 0 := by
      rw [switch_bit_cases, if_neg (by omega)]
    have hledr : led_bit_rv32 index = 0 := by
      have : led_bit_rv32 index = led_bit index := by
        unfold led_bit_rv32 led_bit
        refine gpio_bit_rv32_agrees (index + FirstLED) LEDMask ?_
        unfold FirstLED
        omega
      rw [this, hled]
    have hswr : switch_bit_rv32 index = 0 := by
      have : switch_bit_rv32 index = switch_bit index := by
        unfold switch_bit_rv32 switch_bit
        refine gpio_bit_rv32_agrees (index + FirstSwitch) SwitchMask ?_
        unfold FirstSwitch
        omega
      rw [this, hsw]
    refine ⟨hled, hsw, hledr, hswr, ?_, ?_, ?_, ?_, ?_, ?_, ?_, ?_⟩
    · unfold led_on
      rw [hled, Nat.or_zero]
    · unfold led_off
      rw [hled, and_compl32_zero s.output hs]
    · unfold led_toggle
      rw [hled, Nat.xor_zero]
    · unfold read_switch
      rw [hsw]
      simp
    · unfold led_on_rv32
      rw [hledr, Nat.or_zero]
    · unfold led_off_rv32
      rw [hledr, and_compl32_zero s.output hs]
    · unfold led_toggle_rv32
      rw [hledr, Nat.xor_zero]
    · unfold read_switch_rv32
      rw [hswr]
      simp

/-- Claim C1 amended, witness: at out-of-range index 9 (inside the
C++-defined region) with input bit 8 set, the frame property — in both
models — and the silent no-op hold at concrete values. -/
theorem led_named_accessors_masked_witness :
    (led_on ⟨1, 0x100, 3, 4⟩ 9).output.testBit 8 = (1 : Nat).testBit 8 ∧
    (led_on_rv32 ⟨1, 0x100, 3, 4⟩ 9).output.testBit 8 = (1 : Nat).testBit 8 ∧
    led_toggle ⟨1, 0x100, 3, 4⟩ 9 = ⟨1, 0x100, 3, 4⟩ ∧
    read_switch ⟨1, 0x100, 3, 4⟩ 9 = false := by
  have h := led_named_accessors_masked ⟨1, 0x100, 3, 4⟩ 9 (by decide)
  refine ⟨(h.1 8 (by decide)).1, (h.1 8 (by decide)).2.2.2.1, ?_, ?_⟩
  · exact (h.2.2 (by decide) (by decide)).2.2.2.2.2.2.1
  · exact (h.2.2 (by decide) (by decide)).2.2.2.2.2.2.2.1
